import Mathlib

/-
Verification development for the node-registry / update-distribution service
(`src/api.py`).

Shallow-embedding conventions:
* The `nodes` table is a `List Node`; the audit table `node_change_log` is a
  `List AuditEntry`; the `payloads` table is a `List Payload`.
* SQL `now()` is threaded explicitly as an integer timestamp (seconds).
* `HTTPException(status_code, detail)` is `Except.error ⟨status_code, detail⟩`.
* The source performs no arithmetic on any node attribute: every hardware
  attribute only flows through nullability tests, `COALESCE`, equality checks
  and `str(...)` serialization into the audit table.  Numeric attributes
  (`cpu_cores`, `memory_gb`, `storage_gb`, `version`, drive sizes) are therefore
  modelled by their datastore text form `Option String`; `NULL` is `none`.
* `drives` is a JSON dict in the request (`Optional[Dict[str, float]]`,
  modelled `Option (List (String × String))`) and a text column in the table;
  `json.dumps(specs.drives) if specs.drives else None` is modelled by
  `dumpsDrives`, including Python's falsiness of the empty dict.
-/

namespace ServiceApi

structure AuditEntry where
  node_id : String
  field_name : String
  old_value : Option String
  new_value : Option String
  changed_at : Int

deriving instance DecidableEq, Repr for AuditEntry

structure Node where
  id : String
  hostname : String
  ip_address : String
  mac_address : Option String
  os : Option String
  cpu_model : Option String
  cpu_cores : Option String
  memory_gb : Option String
  storage_gb : Option String
  drives : Option String
  gpu_model : Option String
  version : Option String
  location : String
  owner : String
  notes : String
  status : String
  last_heartbeat : Option Int
  last_checked : Option Int

deriving instance DecidableEq, Repr for Node

/-- The Pydantic request model `NodeSpecs` of `src/api.py` (lines 92-104).
It declares no `location` / `owner` / `notes` field. -/
structure NodeSpecs where
  id : Option String
  hostname : String
  ip_address : String
  mac_address : Option String
  os : Option String
  cpu_model : Option String
  cpu_cores : Option String
  memory_gb : Option String
  storage_gb : Option String
  drives : Option (List (String × String))
  gpu_model : Option String
  version : Option String

deriving instance DecidableEq, Repr for NodeSpecs

/-- The JSON object a client may put on the wire for `/register`; keys that the
Pydantic model does not declare (`location`, `owner`, `notes`) are still
representable here. -/
structure RawRegisterBody where
  id : Option String
  hostname : Option String
  ip_address : Option String
  mac_address : Option String
  os : Option String
  cpu_model : Option String
  cpu_cores : Option String
  memory_gb : Option String
  storage_gb : Option String
  drives : Option (List (String × String))
  gpu_model : Option String
  version : Option String
  location : Option String
  owner : Option String
  notes : Option String

deriving instance DecidableEq, Repr for RawRegisterBody

structure HError where
  status_code : Nat
  detail : String

deriving instance DecidableEq, Repr for HError

structure Payload where
  version : Int
  code : String
  signature : String
  hash : String

deriving instance DecidableEq, Repr for Payload

inductive UpdateResult where
  | noUpdate
  | payload (version signature hash code : String)

deriving instance DecidableEq, Repr for UpdateResult

/-- `log_field_change` (lines 116-123): inserts one `node_change_log` row unless
`old == new`.  Values are already in datastore text form, so
`str(old) if old is not None else None` is the identity. -/
def log_field_change (now : Int) (node_id field : String) (old new : Option String) :
    List AuditEntry :=
  if old = new then []
  else [⟨node_id, field, old, new, now⟩]

/-- Python truthiness of an optional string (`if hash`, `if getattr(specs, "id", None)`):
`None` and `""` are falsy. -/
def pyTruthyStr (s : Option String) : Bool :=
  match s with
  | none => false
  | some v => !(v == "")

/-- The id the register endpoint branches on: `getattr(specs, "id", None)` under
Python truthiness, so an absent id and an empty-string id both take the
identifier-less path. -/
def specsIdValue (specs : NodeSpecs) : Option String :=
  match specs.id with
  | none => none
  | some v => if v == "" then none else some v

/-- Rendering of `json.dumps` on a drives dict. -/
def jsonDumpDrives (d : List (String × String)) : String :=
  "\x7b" ++ String.intercalate ", " (d.map (fun p => "\"" ++ p.1 ++ "\": " ++ p.2)) ++ "\x7d"

/-- `json.dumps(specs.drives) if specs.drives else None` (lines 218 and 249):
`None` and the empty dict are both falsy, hence both become SQL `NULL`. -/
def dumpsDrives (d : Option (List (String × String))) : Option String :=
  match d with
  | none => none
  | some [] => none
  | some l => some (jsonDumpDrives l)

/-- SQL `COALESCE(a, b)`. -/
def coalesce {α : Type} (a b : Option α) : Option α :=
  match a with
  | some v => some v
  | none => b

/-- The `VALUES (...)` row of both INSERT statements of `/register`
(lines 186-191 and 231-236): admin fields `''`, status `'offline'`, both
timestamps `NULL`. -/
def newNodeRow (nid : String) (specs : NodeSpecs) : Node :=
  { id := nid,
    hostname := specs.hostname,
    ip_address := specs.ip_address,
    mac_address := specs.mac_address,
    os := specs.os,
    cpu_model := specs.cpu_model,
    cpu_cores := specs.cpu_cores,
    memory_gb := specs.memory_gb,
    storage_gb := specs.storage_gb,
    drives := dumpsDrives specs.drives,
    gpu_model := specs.gpu_model,
    version := specs.version,
    location := "",
    owner := "",
    notes := "",
    status := "offline",
    last_heartbeat := none,
    last_checked := none }

/-- The `ON CONFLICT (id) DO UPDATE SET ... COALESCE(EXCLUDED.f, nodes.f)`
clause (lines 192-204).  `hostname` and `ip_address` are non-null in the
payload, so their COALESCE is the excluded value.  `location`, `owner`,
`notes`, `status`, `last_heartbeat`, `last_checked` are not listed in the
UPDATE clause and keep their stored values. -/
def mergeNode (old : Node) (specs : NodeSpecs) : Node :=
  { old with
    hostname := specs.hostname,
    ip_address := specs.ip_address,
    mac_address := coalesce specs.mac_address old.mac_address,
    os := coalesce specs.os old.os,
    cpu_model := coalesce specs.cpu_model old.cpu_model,
    cpu_cores := coalesce specs.cpu_cores old.cpu_cores,
    memory_gb := coalesce specs.memory_gb old.memory_gb,
    storage_gb := coalesce specs.storage_gb old.storage_gb,
    drives := coalesce (dumpsDrives specs.drives) old.drives,
    gpu_model := coalesce specs.gpu_model old.gpu_model,
    version := coalesce specs.version old.version }

/-- The `for f in fields` audit loop of `/register` (lines 255-264). -/
def auditFields (now : Int) (old row : Node) : List AuditEntry :=
  log_field_change now row.id "hostname" (some old.hostname) (some row.hostname) ++
  log_field_change now row.id "ip_address" (some old.ip_address) (some row.ip_address) ++
  log_field_change now row.id "mac_address" old.mac_address row.mac_address ++
  log_field_change now row.id "os" old.os row.os ++
  log_field_change now row.id "cpu_model" old.cpu_model row.cpu_model ++
  log_field_change now row.id "cpu_cores" old.cpu_cores row.cpu_cores ++
  log_field_change now row.id "memory_gb" old.memory_gb row.memory_gb ++
  log_field_change now row.id "storage_gb" old.storage_gb row.storage_gb ++
  log_field_change now row.id "drives" old.drives row.drives ++
  log_field_change now row.id "gpu_model" old.gpu_model row.gpu_model ++
  log_field_change now row.id "version" old.version row.version

/-- The `/register` endpoint body (lines 169-266).  `genId` is the id the
database assigns in the identifier-less INSERT.  Returns the updated table,
the audit rows written, and the response's `hostname` and `id`. -/
def register (now : Int) (genId : String) (specs : NodeSpecs) (nodes : List Node) :
    List Node × List AuditEntry × String × String :=
  match specsIdValue specs with
  | some nid =>
    match nodes.find? (fun n => n.id == nid) with
    | some old_row =>
      let row := mergeNode old_row specs
      (nodes.map (fun n => if n.id == nid then row else n),
       auditFields now old_row row, row.hostname, row.id)
    | none =>
      let row := newNodeRow nid specs
      (nodes ++ [row], [], row.hostname, row.id)
  | none =>
    let row := newNodeRow genId specs
    (nodes ++ [row], [], row.hostname, row.id)

/-- FastAPI/Pydantic parsing of the `/register` request body into `NodeSpecs`:
missing required fields (`hostname`, `ip_address`) are a 422 validation error;
keys not declared on the model — in particular `location`, `owner`, `notes` —
are ignored (default Pydantic extra-field behaviour). -/
def parseNodeSpecs (b : RawRegisterBody) : Except HError NodeSpecs :=
  match b.hostname, b.ip_address with
  | some h, some ip =>
    .ok { id := b.id, hostname := h, ip_address := ip,
          mac_address := b.mac_address, os := b.os, cpu_model := b.cpu_model,
          cpu_cores := b.cpu_cores, memory_gb := b.memory_gb,
          storage_gb := b.storage_gb, drives := b.drives,
          gpu_model := b.gpu_model, version := b.version }
  | _, _ => .error ⟨422, "field required"⟩

/-- The `/register` endpoint as reachable from the wire: body parsing followed
by the handler. -/
def register_endpoint (now : Int) (genId : String) (b : RawRegisterBody) (nodes : List Node) :
    Except HError (List Node × List AuditEntry × String × String) :=
  match parseNodeSpecs b with
  | .error e => .error e
  | .ok specs => .ok (register now genId specs nodes)

/-- The `/heartbeat` endpoint (lines 139-165). -/
def heartbeat (now : Int) (nid : String) (nodes : List Node) :
    Except HError (List Node × List AuditEntry) :=
  match nodes.find? (fun n => n.id == nid) with
  | none => .error ⟨404, "Node ID not found"⟩
  | some old_row =>
    let nodes' := nodes.map (fun n =>
      if n.id == nid then { n with last_heartbeat := some now, status := "online" } else n)
    let log := if old_row.status == "online" then []
      else log_field_change now nid "status" (some old_row.status) (some "online")
    .ok (nodes', log)

/-- The `/logoff` endpoint (lines 270-304). -/
def logoff (now : Int) (nid : String) (nodes : List Node) :
    Except HError (List Node × List AuditEntry) :=
  match nodes.find? (fun n => n.id == nid) with
  | none => .error ⟨404, "Node ID not found"⟩
  | some old_row =>
    if old_row.status == "offline" then
      .ok (nodes, [])
    else
      .ok (nodes.map (fun n =>
             if n.id == nid then { n with status := "offline", last_checked := some now } else n),
           log_field_change now nid "status" (some old_row.status) (some "offline"))

/-- The reaper's SELECT condition (lines 43-48):
`last_heartbeat < now() - interval '70 seconds' AND status != 'offline'`.
A `NULL` heartbeat makes the comparison unknown, excluding the row. -/
def isStaleCandidate (now : Int) (n : Node) : Bool :=
  (match n.last_heartbeat with
   | some t => decide (t < now - 70)
   | none => false)
  && !(n.status == "offline")

/-- The reaper's per-candidate UPDATE (lines 55-60). -/
def demote (now : Int) (n : Node) : Node :=
  { n with status := "offline", last_checked := some now }

/-- The rows fetched by the reaper's SELECT: `(id, status)` of each candidate. -/
def sweepRows (now : Int) (nodes : List Node) : List (String × String) :=
  (nodes.filter (fun n => isStaleCandidate now n)).map (fun n => (n.id, n.status))

def applyOffline (now : Int) (nid : String) (nodes : List Node) : List Node :=
  nodes.map (fun n => if n.id == nid then demote now n else n)

/-- One iteration of the reaper's `for r in rows` loop (lines 50-63): UPDATE,
then `log_field_change`. -/
def scanStep (now : Int) (acc : List Node × List AuditEntry) (r : String × String) :
    List Node × List AuditEntry :=
  (applyOffline now r.1 acc.1,
   acc.2 ++ log_field_change now r.1 "status" (some r.2) (some "offline"))

/-- One failure-free sweep of `offline_scanner` (lines 42-63). -/
def offline_scanner_tick (now : Int) (nodes : List Node) : List Node × List AuditEntry :=
  (sweepRows now nodes).foldl (scanStep now) (nodes, [])

/-- The `for r in rows` loop when a candidate's UPDATE can raise: `fails` says
which node ids raise.  The exception aborts the rest of the loop; rows already
processed keep their effects (each statement is its own transaction).  The
returned flag records whether an exception escaped the loop. -/
def sweepExc (now : Int) (fails : String → Bool) :
    List (String × String) → List Node × List AuditEntry → (List Node × List AuditEntry) × Bool
  | [], acc => (acc, false)
  | r :: rest, acc =>
    if fails r.1 then (acc, true)
    else sweepExc now fails rest (scanStep now acc r)

/-- One sweep of `offline_scanner` with fallible per-candidate updates. -/
def offline_scanner_tickExc (now : Int) (fails : String → Bool) (nodes : List Node) :
    (List Node × List AuditEntry) × Bool :=
  sweepExc now fails (sweepRows now nodes) (nodes, [])

structure TickEnv where
  now : Int
  fails : String → Bool

/-- The `while True: try ... except ... sleep` loop (lines 40-68): each tick's
exception is caught and absorbed (`except Exception as e: print(...)`), and the
loop proceeds to its next tick. -/
def offline_scanner_run (envs : List TickEnv) (nodes : List Node) : List Node :=
  match envs with
  | [] => nodes
  | e :: rest => offline_scanner_run rest ((offline_scanner_tickExc e.now e.fails nodes).1).1

/-- `SELECT ... FROM payloads ORDER BY version DESC LIMIT 1` (lines 318-323). -/
def latestPayload (ps : List Payload) : Option Payload :=
  ps.foldl
    (fun acc p =>
      match acc with
      | none => some p
      | some q => if q.version < p.version then some p else some q)
    none

/-- The `/update` endpoint (lines 310-341). -/
def get_update (clientHash : Option String) (ps : List Payload) :
    Except HError UpdateResult :=
  match latestPayload ps with
  | none => .error ⟨503, "No payloads available yet"⟩
  | some row =>
    if pyTruthyStr clientHash && (clientHash == some row.hash) then
      .ok .noUpdate
    else
      .ok (.payload (toString row.version) row.signature row.hash row.code)

/-! ## Helper lemmas -/

theorem mem_log_field_change {now : Int} {nid f : String} {o v : Option String}
    {e : AuditEntry} (h : e ∈ log_field_change now nid f o v) :
    e.old_value ≠ e.new_value := by
  by_cases ho : o = v
  · simp [log_field_change, ho] at h
  · simp [log_field_change, ho] at h
    rw [h]
    exact ho

theorem find_by_id_of_mem (nodes : List Node) (hn : (nodes.map Node.id).Nodup)
    (n : Node) (hm : n ∈ nodes) (nid : String) (hid : n.id = nid) :
    nodes.find? (fun m => m.id == nid) = some n := by
  induction nodes with
  | nil => cases hm
  | cons h t ih =>
    simp only [List.map_cons, List.nodup_cons] at hn
    rcases List.mem_cons.mp hm with rfl | hmt
    · simp [List.find?, hid]
    · have hne : ¬ h.id = nid := by
        intro he
        exact hn.1 (by rw [he, ← hid]; exact List.mem_map_of_mem Node.id hmt)
      simp only [List.find?]
      rw [show (h.id == nid) = false from by simpa using hne]
      exact ih hn.2 hmt

theorem find_by_id_none (nodes : List Node) (nid : String)
    (h : ∀ n ∈ nodes, n.id ≠ nid) :
    nodes.find? (fun m => m.id == nid) = none := by
  apply List.find?_eq_none.mpr
  intro x hx
  simpa using h x hx

/-! ## Sample rows used by witnesses -/

def wOffline : Node :=
  { id := "w1", hostname := "h1", ip_address := "ip1", mac_address := none, os := none,
    cpu_model := none, cpu_cores := none, memory_gb := none, storage_gb := none,
    drives := none, gpu_model := none, version := none, location := "", owner := "",
    notes := "", status := "offline", last_heartbeat := some 0, last_checked := none }

def wOnline : Node :=
  { id := "w2", hostname := "h2", ip_address := "ip2", mac_address := none, os := none,
    cpu_model := none, cpu_cores := none, memory_gb := none, storage_gb := none,
    drives := none, gpu_model := none, version := none, location := "", owner := "",
    notes := "", status := "online", last_heartbeat := some 95, last_checked := none }

/-! ## C8: heartbeat -/

/-- C8: Heartbeat(id) fails with a 404 not-found error when no node has the
identifier; otherwise it sets `last_heartbeat = now()` and `status = 'online'`,
emits exactly one audit entry (old status → "online") when the prior status was
not online, and none when the node was already online, while the heartbeat
timestamp still advances. -/
theorem heartbeat_spec (now : Int) (nid : String) (nodes : List Node)
    (hn : (nodes.map Node.id).Nodup) :
    ((∀ n ∈ nodes, n.id ≠ nid) → heartbeat now nid nodes = .error ⟨404, "Node ID not found"⟩)
    ∧ (∀ n ∈ nodes, n.id = nid →
        ∃ ns log, heartbeat now nid nodes = .ok (ns, log)
          ∧ { n with last_heartbeat := some now, status := "online" } ∈ ns
          ∧ (∀ m ∈ nodes, m.id ≠ nid → m ∈ ns)
          ∧ (n.status ≠ "online" → log = [⟨nid, "status", some n.status, some "online", now⟩])
          ∧ (n.status = "online" → log = [])) := by
  constructor
  · intro h
    unfold heartbeat
    rw [find_by_id_none nodes nid h]
  · intro n hm hid
    have hf := find_by_id_of_mem nodes hn n hm nid hid
    refine ⟨nodes.map (fun m =>
        if m.id == nid then { m with last_heartbeat := some now, status := "online" } else m),
      if n.status == "online" then []
        else log_field_change now nid "status" (some n.status) (some "online"),
      ?_, ?_, ?_, ?_, ?_⟩
    · unfold heartbeat
      rw [hf]
    · have h1 := List.mem_map_of_mem (fun m =>
        if m.id == nid then { m with last_heartbeat := some now, status := "online" } else m) hm
      simpa [hid] using h1
    · intro m hm2 hne
      have h1 := List.mem_map_of_mem (fun m =>
        if m.id == nid then { m with last_heartbeat := some now, status := "online" } else m) hm2
      simpa [hne] using h1
    · intro hns
      simp [hns, log_field_change]
    · intro hs
      simp [hs]

/-- Witness for C8 at concrete inputs. -/
theorem heartbeat_spec_witness :
    heartbeat 9 "zz" [wOffline] = .error ⟨404, "Node ID not found"⟩
    ∧ ∃ ns log, heartbeat 9 "w1" [wOffline] = Except.ok (ns, log)
        ∧ log = [⟨"w1", "status", some "offline", some "online", 9⟩] := by
  have h1 := heartbeat_spec 9 "zz" [wOffline] (by decide)
  have h2 := heartbeat_spec 9 "w1" [wOffline] (by decide)
  refine ⟨h1.1 (by decide), ?_⟩
  obtain ⟨ns, log, he, -, -, hlog, -⟩ := h2.2 wOffline (by decide) (by rfl)
  exact ⟨ns, log, he, hlog (by decide)⟩

/-! ## C9: logoff -/

/-- C9: LogOff(id) is idempotent: unknown identifier → 404; already-offline
node → success with no write and no audit entry; otherwise sets
`status = 'offline'` and `last_checked = now()` and emits exactly one audit
entry for the transition. -/
theorem logoff_spec (now : Int) (nid : String) (nodes : List Node)
    (hn : (nodes.map Node.id).Nodup) :
    ((∀ n ∈ nodes, n.id ≠ nid) → logoff now nid nodes = .error ⟨404, "Node ID not found"⟩)
    ∧ (∀ n ∈ nodes, n.id = nid → n.status = "offline" → logoff now nid nodes = .ok (nodes, []))
    ∧ (∀ n ∈ nodes, n.id = nid → n.status ≠ "offline" →
        ∃ ns, logoff now nid nodes = .ok (ns, [⟨nid, "status", some n.status, some "offline", now⟩])
          ∧ { n with status := "offline", last_checked := some now } ∈ ns
          ∧ (∀ m ∈ nodes, m.id ≠ nid → m ∈ ns)) := by
  refine ⟨?_, ?_, ?_⟩
  · intro h
    unfold logoff
    rw [find_by_id_none nodes nid h]
  · intro n hm hid hs
    have hf := find_by_id_of_mem nodes hn n hm nid hid
    unfold logoff
    rw [hf]
    simp [hs]
  · intro n hm hid hs
    have hf := find_by_id_of_mem nodes hn n hm nid hid
    refine ⟨nodes.map (fun m =>
        if m.id == nid then { m with status := "offline", last_checked := some now } else m),
      ?_, ?_, ?_⟩
    · unfold logoff
      rw [hf]
      simp [hs, log_field_change]
    · have h1 := List.mem_map_of_mem (fun m =>
        if m.id == nid then { m with status := "offline", last_checked := some now } else m) hm
      simpa [hid] using h1
    · intro m hm2 hne
      have h1 := List.mem_map_of_mem (fun m =>
        if m.id == nid then { m with status := "offline", last_checked := some now } else m) hm2
      simpa [hne] using h1

/-- Witness for C9 at concrete inputs. -/
theorem logoff_spec_witness :
    logoff 9 "zz" [wOffline, wOnline] = .error ⟨404, "Node ID not found"⟩
    ∧ logoff 9 "w1" [wOffline, wOnline] = .ok ([wOffline, wOnline], [])
    ∧ ∃ ns, logoff 9 "w2" [wOffline, wOnline]
        = .ok (ns, [⟨"w2", "status", some "online", some "offline", 9⟩]) := by
  have h1 := logoff_spec 9 "zz" [wOffline, wOnline] (by decide)
  have h2 := logoff_spec 9 "w1" [wOffline, wOnline] (by decide)
  have h3 := logoff_spec 9 "w2" [wOffline, wOnline] (by decide)
  refine ⟨h1.1 (by decide), h2.2.1 wOffline (by decide) (by rfl) (by rfl), ?_⟩
  obtain ⟨ns, he, -, -⟩ := h3.2.2 wOnline (by decide) (by rfl) (by decide)
  exact ⟨ns, he⟩

/-! ## Register equations -/

theorem register_merge_eq (now : Int) (genId : String) (specs : NodeSpecs)
    (nodes : List Node) (nid : String) (old : Node)
    (hid : specsIdValue specs = some nid)
    (hf : nodes.find? (fun n => n.id == nid) = some old) :
    register now genId specs nodes =
      (nodes.map (fun n => if n.id == nid then mergeNode old specs else n),
       auditFields now old (mergeNode old specs),
       (mergeNode old specs).hostname, (mergeNode old specs).id) := by
  unfold register
  split
  · rename_i nid' hnid
    rw [hid] at hnid
    cases hnid
    split
    · rename_i old' hold
      rw [hf] at hold
      cases hold
      rfl
    · rename_i hnone
      rw [hf] at hnone
      exact Option.noConfusion hnone
  · rename_i hnone
    rw [hid] at hnone
    exact Option.noConfusion hnone

theorem register_newid_eq (now : Int) (genId : String) (specs : NodeSpecs)
    (nodes : List Node) (nid : String)
    (hid : specsIdValue specs = some nid)
    (hf : nodes.find? (fun n => n.id == nid) = none) :
    register now genId specs nodes =
      (nodes ++ [newNodeRow nid specs], [], (newNodeRow nid specs).hostname, nid) := by
  unfold register
  split
  · rename_i nid' hnid
    rw [hid] at hnid
    cases hnid
    split
    · rename_i old' hold
      rw [hf] at hold
      exact Option.noConfusion hold
    · rename_i hnone
      rfl
  · rename_i hnone
    rw [hid] at hnone
    exact Option.noConfusion hnone

theorem register_noid_eq (now : Int) (genId : String) (specs : NodeSpecs)
    (nodes : List Node)
    (hid : specsIdValue specs = none) :
    register now genId specs nodes =
      (nodes ++ [newNodeRow genId specs], [], (newNodeRow genId specs).hostname, genId) := by
  unfold register
  split
  · rename_i nid' hnid
    rw [hid] at hnid
    exact Option.noConfusion hnid
  · rfl

/-! ## C1: register with existing identifier and presence state -/

/-- C1 (amended): a successful RegisterNode call with an existing node
identifier leaves the stored node's `status`, `last_heartbeat` and
`last_checked` unchanged — the `ON CONFLICT DO UPDATE` clause does not touch
them; only the identifier-less and fresh-identifier insert paths set them (to
offline/NULL/NULL). -/
theorem register_existing_preserves_presence (now : Int) (genId : String)
    (specs : NodeSpecs) (nodes : List Node) (nid : String) (old : Node)
    (hid : specsIdValue specs = some nid)
    (hn : (nodes.map Node.id).Nodup) (hm : old ∈ nodes) (hoid : old.id = nid) :
    ∃ m, m ∈ (register now genId specs nodes).1
      ∧ m.id = old.id ∧ m.status = old.status
      ∧ m.last_heartbeat = old.last_heartbeat ∧ m.last_checked = old.last_checked
      ∧ (∀ k ∈ nodes, k.id ≠ nid → k ∈ (register now genId specs nodes).1) := by
  have hf := find_by_id_of_mem nodes hn old hm nid hoid
  rw [register_merge_eq now genId specs nodes nid old hid hf]
  refine ⟨mergeNode old specs, ?_, rfl, rfl, rfl, rfl, ?_⟩
  · have h1 := List.mem_map_of_mem (fun n => if n.id == nid then mergeNode old specs else n) hm
    simpa [hoid] using h1
  · intro k hk hne
    have h1 := List.mem_map_of_mem (fun n => if n.id == nid then mergeNode old specs else n) hk
    simpa [hne] using h1

def c1old : Node :=
  { id := "n1", hostname := "oldh", ip_address := "oldip", mac_address := none, os := none,
    cpu_model := none, cpu_cores := none, memory_gb := none, storage_gb := none,
    drives := none, gpu_model := none, version := none, location := "", owner := "",
    notes := "", status := "offline", last_heartbeat := none, last_checked := none }

def c1specs : NodeSpecs :=
  { id := some "n1", hostname := "h", ip_address := "ip", mac_address := none, os := none,
    cpu_model := none, cpu_cores := none, memory_gb := none, storage_gb := none,
    drives := none, gpu_model := none, version := none }

/-- C1 counterexample: registering the existing node `n1` (currently offline,
never heartbeaten) at time 100 leaves it offline with NULL timestamps — the
claim's forced `status = online`, `last_heartbeat = last_checked = now` does
not happen. -/
theorem register_existing_not_forced_online :
    ∃ m ∈ (register 100 "gen" c1specs [c1old]).1,
      m.id = "n1" ∧ m.status ≠ "online" ∧ m.status = "offline"
      ∧ m.last_heartbeat = none ∧ m.last_checked = none := by
  decide

/-- Witness for the amended C1 at concrete inputs. -/
theorem register_existing_preserves_presence_witness :
    ∃ m ∈ (register 100 "gen" c1specs [c1old]).1,
      m.id = "n1" ∧ m.status = "offline" := by
  obtain ⟨m, hmem, hid, hst, -, -, -⟩ :=
    register_existing_preserves_presence 100 "gen" c1specs [c1old] "n1" c1old
      (by rfl) (by decide) (by decide) (by rfl)
  exact ⟨m, hmem, by rw [hid]; rfl, by rw [hst]; rfl⟩

/-! ## C2: merge semantics for null / absent / empty drives -/

/-- C2 (amended): the merge is field-preserving but does not distinguish
absence from explicit null: a null attribute (omitted or explicitly null)
always leaves the stored value unchanged (`COALESCE`), and an explicit empty
drives mapping is converted to SQL NULL before the write (Python falsiness of
the empty dict) and therefore also leaves the stored drives unchanged; only a
non-null (for drives: non-empty) supplied value overwrites. -/
theorem register_merge_null_semantics (now : Int) (genId : String)
    (specs : NodeSpecs) (nodes : List Node) (nid : String) (old : Node)
    (hid : specsIdValue specs = some nid)
    (hn : (nodes.map Node.id).Nodup) (hm : old ∈ nodes) (hoid : old.id = nid) :
    ∃ m, m ∈ (register now genId specs nodes).1 ∧ m.id = old.id
      ∧ (specs.mac_address = none → m.mac_address = old.mac_address)
      ∧ (∀ v, specs.mac_address = some v → m.mac_address = some v)
      ∧ (specs.os = none → m.os = old.os)
      ∧ (∀ v, specs.os = some v → m.os = some v)
      ∧ ((specs.drives = none ∨ specs.drives = some []) → m.drives = old.drives)
      ∧ (∀ l, specs.drives = some l → l ≠ [] → m.drives = some (jsonDumpDrives l)) := by
  have hf := find_by_id_of_mem nodes hn old hm nid hoid
  rw [register_merge_eq now genId specs nodes nid old hid hf]
  refine ⟨mergeNode old specs, ?_, rfl, ?_, ?_, ?_, ?_, ?_, ?_⟩
  · have h1 := List.mem_map_of_mem (fun n => if n.id == nid then mergeNode old specs else n) hm
    simpa [hoid] using h1
  · intro h
    simp [mergeNode, coalesce, h]
  · intro v h
    simp [mergeNode, coalesce, h]
  · intro h
    simp [mergeNode, coalesce, h]
  · intro v h
    simp [mergeNode, coalesce, h]
  · rintro (h | h) <;> simp [mergeNode, coalesce, dumpsDrives, h]
  · intro l h hne
    cases l with
    | nil => exact absurd rfl hne
    | cons a t => simp [mergeNode, coalesce, dumpsDrives, h]

def c2old : Node :=
  { id := "n2", hostname := "oldh", ip_address := "oldip", mac_address := some "aa:bb",
    os := none, cpu_model := none, cpu_cores := none, memory_gb := none,
    storage_gb := none, drives := some "storedDrives", gpu_model := none, version := none,
    location := "", owner := "", notes := "", status := "online",
    last_heartbeat := some 50, last_checked := some 50 }

def c2specs : NodeSpecs :=
  { id := some "n2", hostname := "h", ip_address := "ip", mac_address := none, os := none,
    cpu_model := none, cpu_cores := none, memory_gb := none, storage_gb := none,
    drives := some [], gpu_model := none, version := none }

/-- C2 counterexample: registering node `n2` with an explicitly null
`mac_address` and an explicitly empty `drives` mapping overwrites neither: the
stored mac stays `aa:bb` (not wiped to null) and the stored drives mapping
survives (the empty mapping does not overwrite it). -/
theorem register_merge_conflates_null :
    c2specs.drives = some [] ∧ c2specs.mac_address = none
    ∧ ∃ m ∈ (register 100 "gen" c2specs [c2old]).1,
        m.id = "n2" ∧ m.drives = some "storedDrives" ∧ m.mac_address = some "aa:bb" := by
  decide

/-- Witness for the amended C2 at concrete inputs. -/
theorem register_merge_null_semantics_witness :
    ∃ m ∈ (register 100 "gen" c2specs [c2old]).1,
      m.id = "n2" ∧ m.drives = some "storedDrives" := by
  obtain ⟨m, hmem, hid, -, -, -, -, hdr, -⟩ :=
    register_merge_null_semantics 100 "gen" c2specs [c2old] "n2" c2old
      (by rfl) (by decide) (by decide) (by rfl)
  refine ⟨m, hmem, by rw [hid]; rfl, ?_⟩
  rw [hdr (Or.inr (by rfl))]
  rfl

/-! ## C10: initial values of newly created rows -/

/-- C10: every node row newly created by RegisterNode — identifier-less path or
identifier-present path with no existing row — is initialized with
`status = 'offline'`, NULL `last_heartbeat` and `last_checked`, and empty
`location` / `owner` / `notes`. -/
theorem register_new_row_init (now : Int) (genId : String) (specs : NodeSpecs)
    (nodes : List Node) :
    (specsIdValue specs = none →
      ∃ row, (register now genId specs nodes).1 = nodes ++ [row]
        ∧ row.id = genId ∧ row.status = "offline"
        ∧ row.last_heartbeat = none ∧ row.last_checked = none
        ∧ row.location = "" ∧ row.owner = "" ∧ row.notes = "")
    ∧ (∀ nid, specsIdValue specs = some nid → (∀ n ∈ nodes, n.id ≠ nid) →
      ∃ row, (register now genId specs nodes).1 = nodes ++ [row]
        ∧ row.id = nid ∧ row.status = "offline"
        ∧ row.last_heartbeat = none ∧ row.last_checked = none
        ∧ row.location = "" ∧ row.owner = "" ∧ row.notes = "") := by
  constructor
  · intro h
    rw [register_noid_eq now genId specs nodes h]
    exact ⟨newNodeRow genId specs, rfl, rfl, rfl, rfl, rfl, rfl, rfl, rfl⟩
  · intro nid h hnone
    rw [register_newid_eq now genId specs nodes nid h (find_by_id_none nodes nid hnone)]
    exact ⟨newNodeRow nid specs, rfl, rfl, rfl, rfl, rfl, rfl, rfl, rfl⟩

def c10specsNoId : NodeSpecs :=
  { id := none, hostname := "h", ip_address := "ip", mac_address := none, os := none,
    cpu_model := none, cpu_cores := none, memory_gb := none, storage_gb := none,
    drives := none, gpu_model := none, version := none }

/-- Witness for C10 at concrete inputs, exercising both creation paths. -/
theorem register_new_row_init_witness :
    (∃ row, (register 7 "gen" c10specsNoId [wOnline]).1 = [wOnline] ++ [row]
       ∧ row.id = "gen" ∧ row.status = "offline")
    ∧ (∃ row, (register 7 "gen" c1specs [wOnline]).1 = [wOnline] ++ [row]
       ∧ row.id = "n1" ∧ row.status = "offline") := by
  constructor
  · obtain ⟨row, he, hid, hst, -⟩ :=
      (register_new_row_init 7 "gen" c10specsNoId [wOnline]).1 (by rfl)
    exact ⟨row, he, hid, hst⟩
  · obtain ⟨row, he, hid, hst, -⟩ :=
      (register_new_row_init 7 "gen" c1specs [wOnline]).2 "n1" (by rfl) (by decide)
    exact ⟨row, he, hid, hst⟩

/-! ## Reaper lemmas -/

theorem isStale_iff (now : Int) (n : Node) :
    isStaleCandidate now n = true ↔
      ((∃ t, n.last_heartbeat = some t ∧ t < now - 70) ∧ n.status ≠ "offline") := by
  cases hlh : n.last_heartbeat with
  | none => simp [isStaleCandidate, hlh]
  | some t => simp [isStaleCandidate, hlh]

theorem sweepRows_prop (now : Int) (nodes : List Node) :
    ∀ r ∈ sweepRows now nodes, r.2 ≠ "offline" := by
  intro r hr
  simp only [sweepRows, List.mem_map, List.mem_filter] at hr
  obtain ⟨n, ⟨hn, hs⟩, rfl⟩ := hr
  exact ((isStale_iff now n).mp hs).2

theorem mem_sweepRows (now : Int) (nodes : List Node) (n : Node) (hm : n ∈ nodes)
    (hs : isStaleCandidate now n = true) : (n.id, n.status) ∈ sweepRows now nodes := by
  simp only [sweepRows, List.mem_map, List.mem_filter]
  exact ⟨n, ⟨hm, hs⟩, rfl⟩

theorem foldl_scanStep_eq (now : Int) (rows : List (String × String)) (st : List Node)
    (log : List AuditEntry) (h : ∀ r ∈ rows, r.2 ≠ "offline") :
    rows.foldl (scanStep now) (st, log) =
      (st.map (fun n => if (∃ r ∈ rows, r.1 = n.id) then demote now n else n),
       log ++ rows.map (fun r => ⟨r.1, "status", some r.2, some "offline", now⟩)) := by
  induction rows generalizing st log with
  | nil => simp
  | cons r rest ih =>
    have hr2 : r.2 ≠ "offline" := h r (List.mem_cons_self r rest)
    have hrest : ∀ x ∈ rest, x.2 ≠ "offline" := fun x hx => h x (List.mem_cons_of_mem r hx)
    rw [List.foldl_cons]
    simp only [scanStep]
    rw [ih (applyOffline now r.1 st) (log ++ log_field_change now r.1 "status" (some r.2) (some "offline")) hrest]
    simp only [Prod.mk.injEq]
    constructor
    · unfold applyOffline
      rw [List.map_map]
      apply List.map_congr_left
      intro n _
      show (if (∃ x ∈ rest, x.1 = (if n.id == r.1 then demote now n else n).id)
              then demote now (if n.id == r.1 then demote now n else n)
              else (if n.id == r.1 then demote now n else n))
          = (if (∃ x ∈ r :: rest, x.1 = n.id) then demote now n else n)
      by_cases hni : r.1 = n.id
      · have hinner : (if n.id == r.1 then demote now n else n) = demote now n := by
          simp [hni]
        rw [hinner]
        rw [show demote now (demote now n) = demote now n from rfl]
        rw [show (demote now n).id = n.id from rfl]
        rw [ite_self]
        rw [if_pos ⟨r, List.mem_cons_self r rest, hni⟩]
      · have hni' : ¬ (n.id = r.1) := fun hh => hni hh.symm
        have hinner : (if n.id == r.1 then demote now n else n) = n := by
          simp [hni']
        rw [hinner]
        have hcond : (∃ x ∈ r :: rest, x.1 = n.id) ↔ (∃ x ∈ rest, x.1 = n.id) := by
          constructor
          · rintro ⟨x, hx, hxe⟩
            rcases List.mem_cons.mp hx with rfl | hxr
            · exact absurd hxe hni
            · exact ⟨x, hxr, hxe⟩
          · rintro ⟨x, hx, hxe⟩
            exact ⟨x, List.mem_cons_of_mem r hx, hxe⟩
        simp only [hcond]
    · simp [log_field_change, hr2]

theorem tick_eq (now : Int) (nodes : List Node) :
    offline_scanner_tick now nodes =
      (nodes.map (fun n => if (∃ r ∈ sweepRows now nodes, r.1 = n.id) then demote now n else n),
       (sweepRows now nodes).map (fun r => ⟨r.1, "status", some r.2, some "offline", now⟩)) := by
  unfold offline_scanner_tick
  rw [foldl_scanStep_eq now (sweepRows now nodes) nodes [] (sweepRows_prop now nodes)]
  simp

theorem exists_row_iff (now : Int) (nodes : List Node)
    (hn : (nodes.map Node.id).Nodup) (n : Node) (hm : n ∈ nodes) :
    (∃ r ∈ sweepRows now nodes, r.1 = n.id) ↔ isStaleCandidate now n = true := by
  constructor
  · rintro ⟨r, hr, hid⟩
    simp only [sweepRows, List.mem_map, List.mem_filter] at hr
    obtain ⟨m, ⟨hmm, hms⟩, rfl⟩ := hr
    have hmn : m = n := List.inj_on_of_nodup_map hn hmm hm hid
    exact hmn ▸ hms
  · intro hs
    exact ⟨(n.id, n.status), mem_sweepRows now nodes n hm hs, rfl⟩

theorem countP_id_eq_one (l : List Node) (hnd : (l.map Node.id).Nodup)
    (n : Node) (hm : n ∈ l) :
    l.countP (fun m => m.id == n.id) = 1 := by
  induction l with
  | nil => cases hm
  | cons hd t ih =>
    simp only [List.map_cons, List.nodup_cons] at hnd
    rw [List.countP_cons]
    rcases List.mem_cons.mp hm with rfl | hmt
    · have hz : t.countP (fun m => m.id == n.id) = 0 := by
        apply List.countP_eq_zero.mpr
        intro m hmem
        simp only [beq_iff_eq]
        intro he
        exact hnd.1 (he ▸ List.mem_map_of_mem Node.id hmem)
      simp [hz]
    · have hne : ¬ (hd.id = n.id) := by
        intro he
        exact hnd.1 (he ▸ List.mem_map_of_mem Node.id hmt)
      simp only [beq_iff_eq, hne, if_false]
      simpa using ih hnd.2 hmt

theorem tick_log_count (now : Int) (nodes : List Node)
    (hn : (nodes.map Node.id).Nodup) (n : Node) (hm : n ∈ nodes) :
    (offline_scanner_tick now nodes).2.countP (fun e => e.node_id == n.id)
      = if isStaleCandidate now n = true then 1 else 0 := by
  rw [tick_eq]
  have h1 : ((sweepRows now nodes).map
        (fun r => (⟨r.1, "status", some r.2, some "offline", now⟩ : AuditEntry))).countP
          (fun e => e.node_id == n.id)
      = (sweepRows now nodes).countP (fun r => r.1 == n.id) := by
    rw [List.countP_map]
    rfl
  have h2 : (sweepRows now nodes).countP (fun r => r.1 == n.id)
      = (nodes.filter (fun m => isStaleCandidate now m)).countP (fun m => m.id == n.id) := by
    unfold sweepRows
    rw [List.countP_map]
    rfl
  show ((sweepRows now nodes).map
      (fun r => (⟨r.1, "status", some r.2, some "offline", now⟩ : AuditEntry))).countP
        (fun e => e.node_id == n.id) = _
  rw [h1, h2]
  have hnd : ((nodes.filter (fun m => isStaleCandidate now m)).map Node.id).Nodup :=
    List.Nodup.sublist (List.Sublist.map Node.id (List.filter_sublist nodes)) hn
  by_cases hs : isStaleCandidate now n = true
  · rw [if_pos hs]
    exact countP_id_eq_one _ hnd n (List.mem_filter.mpr ⟨hm, hs⟩)
  · rw [if_neg hs]
    apply List.countP_eq_zero.mpr
    intro m hmem
    simp only [beq_iff_eq]
    intro he
    have hmn : m = n :=
      List.inj_on_of_nodup_map hn (List.mem_filter.mp hmem).1 hm he
    exact hs (hmn ▸ (List.mem_filter.mp hmem).2)

/-! ## C4: reaper tick -/

/-- C4: on a reaper tick, every node whose `last_heartbeat` is older than the
70-second threshold and whose status is not offline is demoted
(`status = 'offline'`, `last_checked = now()`) with exactly one audit entry
(old status → "offline"); every non-candidate node — in particular every node
whose heartbeat is within the threshold — is left unchanged with no new audit
entry; and an offline node is never transitioned to online. -/
theorem reaper_tick_spec (now : Int) (nodes : List Node)
    (hn : (nodes.map Node.id).Nodup) (n : Node) (hm : n ∈ nodes) :
    (isStaleCandidate now n = true →
        demote now n ∈ (offline_scanner_tick now nodes).1
        ∧ (⟨n.id, "status", some n.status, some "offline", now⟩ : AuditEntry)
            ∈ (offline_scanner_tick now nodes).2
        ∧ (offline_scanner_tick now nodes).2.countP (fun e => e.node_id == n.id) = 1)
    ∧ (isStaleCandidate now n = false →
        n ∈ (offline_scanner_tick now nodes).1
        ∧ (offline_scanner_tick now nodes).2.countP (fun e => e.node_id == n.id) = 0)
    ∧ (n.status = "offline" →
        n ∈ (offline_scanner_tick now nodes).1
        ∧ ∀ m ∈ (offline_scanner_tick now nodes).1, m.id = n.id → m = n) := by
  have hmem_of_not : isStaleCandidate now n = false → n ∈ (offline_scanner_tick now nodes).1 := by
    intro hs
    have hnc : ¬ (∃ r ∈ sweepRows now nodes, r.1 = n.id) := by
      intro hc
      have ht := (exists_row_iff now nodes hn n hm).mp hc
      rw [ht] at hs
      exact Bool.noConfusion hs
    have h1 : (if (∃ r ∈ sweepRows now nodes, r.1 = n.id) then demote now n else n)
        ∈ nodes.map (fun k => if (∃ r ∈ sweepRows now nodes, r.1 = k.id) then demote now k else k) :=
      List.mem_map_of_mem _ hm
    rw [if_neg hnc] at h1
    rw [tick_eq]
    exact h1
  refine ⟨?_, ?_, ?_⟩
  · intro hs
    refine ⟨?_, ?_, ?_⟩
    · have h1 : (if (∃ r ∈ sweepRows now nodes, r.1 = n.id) then demote now n else n)
          ∈ nodes.map (fun k => if (∃ r ∈ sweepRows now nodes, r.1 = k.id) then demote now k else k) :=
        List.mem_map_of_mem _ hm
      rw [if_pos ((exists_row_iff now nodes hn n hm).mpr hs)] at h1
      rw [tick_eq]
      exact h1
    · rw [tick_eq]
      exact List.mem_map_of_mem
        (fun r => (⟨r.1, "status", some r.2, some "offline", now⟩ : AuditEntry))
        (mem_sweepRows now nodes n hm hs)
    · rw [tick_log_count now nodes hn n hm, if_pos hs]
  · intro hs
    refine ⟨hmem_of_not hs, ?_⟩
    rw [tick_log_count now nodes hn n hm, if_neg (by simp [hs])]
  · intro hoff
    have hs : isStaleCandidate now n = false := by
      simp [isStaleCandidate, hoff]
    refine ⟨hmem_of_not hs, ?_⟩
    intro m hmm hid
    rw [tick_eq] at hmm
    have hmm' : m ∈ nodes.map
        (fun k => if (∃ r ∈ sweepRows now nodes, r.1 = k.id) then demote now k else k) := hmm
    simp only [List.mem_map] at hmm'
    obtain ⟨k, hk, hkm⟩ := hmm'
    by_cases hks : (∃ r ∈ sweepRows now nodes, r.1 = k.id)
    · exfalso
      have hkm' : demote now k = m := by
        rw [← hkm]
        exact (if_pos hks).symm
      have hkid : k.id = n.id := by
        rw [← hid, ← hkm']
        rfl
      have hkn : k = n := List.inj_on_of_nodup_map hn hk hm hkid
      have hkstale := (exists_row_iff now nodes hn k hk).mp hks
      rw [hkn] at hkstale
      rw [hkstale] at hs
      exact Bool.noConfusion hs
    · have hkm' : k = m := by
        rw [← hkm]
        exact (if_neg hks).symm
      rw [← hkm']
      exact List.inj_on_of_nodup_map hn hk hm (by rw [hkm']; exact hid)

def c4stale : Node :=
  { id := "s1", hostname := "h3", ip_address := "ip3", mac_address := none, os := none,
    cpu_model := none, cpu_cores := none, memory_gb := none, storage_gb := none,
    drives := none, gpu_model := none, version := none, location := "", owner := "",
    notes := "", status := "online", last_heartbeat := some 0, last_checked := none }

/-- Witness for C4 at concrete inputs: a stale online node is demoted with one
audit entry, a fresh node and an offline node are untouched. -/
theorem reaper_tick_spec_witness :
    demote 100 c4stale ∈ (offline_scanner_tick 100 [c4stale, wOnline, wOffline]).1
    ∧ (offline_scanner_tick 100 [c4stale, wOnline, wOffline]).2.countP
        (fun e => e.node_id == c4stale.id) = 1
    ∧ wOnline ∈ (offline_scanner_tick 100 [c4stale, wOnline, wOffline]).1
    ∧ wOffline ∈ (offline_scanner_tick 100 [c4stale, wOnline, wOffline]).1 := by
  have h1 := reaper_tick_spec 100 [c4stale, wOnline, wOffline] (by decide) c4stale (by decide)
  have h2 := reaper_tick_spec 100 [c4stale, wOnline, wOffline] (by decide) wOnline (by decide)
  have h3 := reaper_tick_spec 100 [c4stale, wOnline, wOffline] (by decide) wOffline (by decide)
  exact ⟨(h1.1 (by decide)).1, (h1.1 (by decide)).2.2,
         (h2.2.1 (by decide)).1, (h3.2.2 (by rfl)).1⟩

/-! ## C5: failure handling inside a sweep -/

def c5a : Node :=
  { id := "a", hostname := "ha", ip_address := "ipa", mac_address := none, os := none,
    cpu_model := none, cpu_cores := none, memory_gb := none, storage_gb := none,
    drives := none, gpu_model := none, version := none, location := "", owner := "",
    notes := "", status := "online", last_heartbeat := some 0, last_checked := none }

def c5b : Node :=
  { id := "b", hostname := "hb", ip_address := "ipb", mac_address := none, os := none,
    cpu_model := none, cpu_cores := none, memory_gb := none, storage_gb := none,
    drives := none, gpu_model := none, version := none, location := "", owner := "",
    notes := "", status := "online", last_heartbeat := some 0, last_checked := none }

/-- C5 counterexample: with two stale candidates `a` and `b` in one sweep and
only `a`'s UPDATE failing, `b` — although a candidate whose own update would
succeed — is not processed: the table and the audit log are unchanged and the
sweep ends in the exception handler.  The failure of one candidate does
prevent the remaining candidates of the sweep from being processed. -/
theorem reaper_failure_blocks_rest :
    isStaleCandidate 100 c5b = true
    ∧ (fun s => s == "a") c5b.id = false
    ∧ offline_scanner_tickExc 100 (fun s => s == "a") [c5a, c5b] = (([c5a, c5b], []), true) := by
  decide

/-- C5 (amended): a failure while updating one candidate aborts the remainder
of that sweep — candidates before the failing one keep their updates, the
failing one and all later candidates are left unprocessed — but the exception
is caught by the loop body, so the reaper proceeds to its next tick. -/
theorem reaper_failure_aborts_sweep_loop_continues :
    (∀ (now : Int) (fails : String → Bool) (pre : List (String × String))
       (f : String × String) (post : List (String × String))
       (acc : List Node × List AuditEntry),
       (∀ r ∈ pre, fails r.1 = false) → fails f.1 = true →
       sweepExc now fails (pre ++ f :: post) acc = (pre.foldl (scanStep now) acc, true))
    ∧ (∀ (e : TickEnv) (envs : List TickEnv) (nodes : List Node),
       offline_scanner_run (e :: envs) nodes =
         offline_scanner_run envs ((offline_scanner_tickExc e.now e.fails nodes).1).1) := by
  constructor
  · intro now fails pre f post acc hpre hf
    induction pre generalizing acc with
    | nil =>
      simp [sweepExc, hf]
    | cons r rest ih =>
      have hr : fails r.1 = false := hpre r (List.mem_cons_self r rest)
      rw [List.cons_append, List.foldl_cons]
      show (if fails r.1 then ((acc, true)) else
          sweepExc now fails (rest ++ f :: post) (scanStep now acc r)) = _
      rw [hr]
      simp only [Bool.false_eq_true, if_false]
      exact ih (scanStep now acc r) (fun x hx => hpre x (List.mem_cons_of_mem r hx))
  · intro e envs nodes
    rfl

/-- Witness for the amended C5 at concrete inputs. -/
theorem reaper_failure_aborts_sweep_witness :
    sweepExc 100 (fun s => s == "a")
        ([("p", "online")] ++ ("a", "online") :: [("b", "online")]) ([c5a, c5b], [])
      = ([("p", "online")].foldl (scanStep 100) ([c5a, c5b], []), true)
    ∧ offline_scanner_run (⟨100, fun s => s == "a"⟩ :: []) [c5a]
      = offline_scanner_run [] ((offline_scanner_tickExc 100 (fun s => s == "a") [c5a]).1).1 := by
  exact ⟨reaper_failure_aborts_sweep_loop_continues.1 100 (fun s => s == "a")
          [("p", "online")] ("a", "online") [("b", "online")] ([c5a, c5b], [])
          (by decide) (by decide),
        reaper_failure_aborts_sweep_loop_continues.2 ⟨100, fun s => s == "a"⟩ [] [c5a]⟩

/-! ## C6: the audit log never records a no-op transition -/

/-- C6: a call of the audit record operation with equal old and new values
(including both null) writes nothing and raises nothing; consequently no audit
entry produced by register, heartbeat, logoff or the reaper has its old value
equal to its new value. -/
theorem audit_no_selfloop :
    (∀ (now : Int) (nid f : String) (v : Option String), log_field_change now nid f v v = [])
    ∧ (∀ (now : Int) (nid : String) (nodes ns : List Node) (log : List AuditEntry)
         (e : AuditEntry),
         heartbeat now nid nodes = .ok (ns, log) → e ∈ log → e.old_value ≠ e.new_value)
    ∧ (∀ (now : Int) (nid : String) (nodes ns : List Node) (log : List AuditEntry)
         (e : AuditEntry),
         logoff now nid nodes = .ok (ns, log) → e ∈ log → e.old_value ≠ e.new_value)
    ∧ (∀ (now : Int) (nodes : List Node) (e : AuditEntry),
         e ∈ (offline_scanner_tick now nodes).2 → e.old_value ≠ e.new_value)
    ∧ (∀ (now : Int) (genId : String) (specs : NodeSpecs) (nodes : List Node) (e : AuditEntry),
         e ∈ (register now genId specs nodes).2.1 → e.old_value ≠ e.new_value) := by
  refine ⟨?_, ?_, ?_, ?_, ?_⟩
  · intro now nid f v
    simp [log_field_change]
  · intro now nid nodes ns log e h he
    unfold heartbeat at h
    split at h
    · exact absurd h (by simp)
    · simp only [Except.ok.injEq, Prod.mk.injEq] at h
      rw [← h.2] at he
      rename_i old_row _
      by_cases hs : (old_row.status == "online") = true
      · rw [if_pos hs] at he
        exact absurd he (List.not_mem_nil e)
      · rw [if_neg hs] at he
        exact mem_log_field_change he
  · intro now nid nodes ns log e h he
    unfold logoff at h
    split at h
    · exact absurd h (by simp)
    · split at h
      · simp only [Except.ok.injEq, Prod.mk.injEq] at h
        rw [← h.2] at he
        exact absurd he (List.not_mem_nil e)
      · simp only [Except.ok.injEq, Prod.mk.injEq] at h
        rw [← h.2] at he
        exact mem_log_field_change he
  · intro now nodes e he
    rw [tick_eq] at he
    have he' : e ∈ (sweepRows now nodes).map
        (fun r => (⟨r.1, "status", some r.2, some "offline", now⟩ : AuditEntry)) := he
    simp only [List.mem_map] at he'
    obtain ⟨r, hr, hre⟩ := he'
    rw [← hre]
    simpa using sweepRows_prop now nodes r hr
  · intro now genId specs nodes e he
    unfold register at he
    split at he
    · split at he
      · simp only [auditFields, List.append_assoc, List.mem_append] at he
        rcases he with h | h | h | h | h | h | h | h | h | h | h <;> exact mem_log_field_change h
      · exact absurd he (by simp)
    · exact absurd he (by simp)

/-- Witness for C6 at concrete inputs: the equal-values call writes nothing,
and concrete entries emitted by heartbeat, the reaper and register have
distinct old/new values. -/
theorem audit_no_selfloop_witness :
    log_field_change 3 "x" "f" (some "v") (some "v") = []
    ∧ ((⟨"w1", "status", some "offline", some "online", 9⟩ : AuditEntry).old_value
        ≠ (⟨"w1", "status", some "offline", some "online", 9⟩ : AuditEntry).new_value)
    ∧ ((⟨"s1", "status", some "online", some "offline", 100⟩ : AuditEntry).old_value
        ≠ (⟨"s1", "status", some "online", some "offline", 100⟩ : AuditEntry).new_value)
    ∧ ((⟨"n2", "hostname", some "oldh", some "h", 100⟩ : AuditEntry).old_value
        ≠ (⟨"n2", "hostname", some "oldh", some "h", 100⟩ : AuditEntry).new_value) := by
  refine ⟨audit_no_selfloop.1 3 "x" "f" (some "v"), ?_, ?_, ?_⟩
  · exact audit_no_selfloop.2.1 9 "w1" [wOffline]
      [{ wOffline with last_heartbeat := some 9, status := "online" }]
      [⟨"w1", "status", some "offline", some "online", 9⟩]
      ⟨"w1", "status", some "offline", some "online", 9⟩
      (by rfl) (by decide)
  · exact audit_no_selfloop.2.2.2.1 100 [c4stale]
      ⟨"s1", "status", some "online", some "offline", 100⟩ (by decide)
  · exact audit_no_selfloop.2.2.2.2 100 "gen" c2specs [c2old]
      ⟨"n2", "hostname", some "oldh", some "h", 100⟩ (by decide)

/-! ## C7: the update three-way gate -/

/-- C7: CheckForUpdate fails with the 503 unavailable error on an empty
catalog, distinct from the no-update success case; when the supplied hash
equals the highest-version payload's hash it returns the empty no-update
result; otherwise (hash absent or different) it returns the full payload of
version, signature, hash and code.  The stored hash is assumed non-empty,
which the payload invariant (hash = base64 SHA-256 of the code) guarantees. -/
theorem get_update_gate (ps : List Payload) (clientHash : Option String) :
    (ps = [] → get_update clientHash ps = .error ⟨503, "No payloads available yet"⟩)
    ∧ (∀ p, latestPayload ps = some p → p.hash ≠ "" →
        ((clientHash = some p.hash → get_update clientHash ps = .ok UpdateResult.noUpdate)
         ∧ (clientHash ≠ some p.hash →
            get_update clientHash ps
              = .ok (UpdateResult.payload (toString p.version) p.signature p.hash p.code)))) := by
  constructor
  · intro h
    subst h
    rfl
  · intro p hp hne
    constructor
    · intro hc
      subst hc
      unfold get_update
      split
      · rename_i hnone
        rw [hp] at hnone
        exact Option.noConfusion hnone
      · rename_i row hrow
        rw [hp] at hrow
        injection hrow with hrow
        subst hrow
        rw [if_pos]
        simp [pyTruthyStr, hne]
    · intro hc
      unfold get_update
      split
      · rename_i hnone
        rw [hp] at hnone
        exact Option.noConfusion hnone
      · rename_i row hrow
        rw [hp] at hrow
        injection hrow with hrow
        subst hrow
        rw [if_neg]
        intro hcc
        exact hc (by simpa using ((Bool.and_eq_true _ _).mp hcc).2)

def wPayload : Payload :=
  { version := 1, code := "codeblob", signature := "sig", hash := "H" }

/-- Witness for C7 at concrete inputs, exercising all three gate outcomes. -/
theorem get_update_gate_witness :
    get_update (some "H") [] = .error ⟨503, "No payloads available yet"⟩
    ∧ get_update (some "H") [wPayload] = .ok UpdateResult.noUpdate
    ∧ get_update none [wPayload]
        = .ok (UpdateResult.payload (toString wPayload.version) "sig" "H" "codeblob")
    ∧ get_update (some "X") [wPayload]
        = .ok (UpdateResult.payload (toString wPayload.version) "sig" "H" "codeblob") := by
  have h0 := get_update_gate [] (some "H")
  have h1 := get_update_gate [wPayload] (some "H")
  have h2 := get_update_gate [wPayload] none
  have h3 := get_update_gate [wPayload] (some "X")
  refine ⟨h0.1 rfl, ?_, ?_, ?_⟩
  · exact (h1.2 wPayload rfl (by decide)).1 rfl
  · exact (h2.2 wPayload rfl (by decide)).2 (by decide)
  · exact (h3.2 wPayload rfl (by decide)).2 (by decide)

/-! ## C3: administrative fields on self-service registration -/

/-- C3 (amended): a self-service RegisterNode call that supplies a non-empty
administrative field (`location`, `owner`, `notes`) is not rejected: the
request model declares no such fields, so the values are silently dropped —
the call behaves exactly as if they were absent, and succeeds whenever the
required `hostname` and `ip_address` are present. -/
theorem register_admin_fields_ignored (now : Int) (genId : String) (b : RawRegisterBody)
    (nodes : List Node) :
    register_endpoint now genId b nodes =
      register_endpoint now genId { b with location := none, owner := none, notes := none } nodes
    ∧ (∀ h ip, b.hostname = some h → b.ip_address = some ip →
        ∃ res, register_endpoint now genId b nodes = .ok res) := by
  constructor
  · rfl
  · intro h ip hh hip
    refine ⟨register now genId
      { id := b.id, hostname := h, ip_address := ip, mac_address := b.mac_address,
        os := b.os, cpu_model := b.cpu_model, cpu_cores := b.cpu_cores,
        memory_gb := b.memory_gb, storage_gb := b.storage_gb, drives := b.drives,
        gpu_model := b.gpu_model, version := b.version } nodes, ?_⟩
    unfold register_endpoint parseNodeSpecs
    rw [hh, hip]

def c3body : RawRegisterBody :=
  { id := none, hostname := some "h", ip_address := some "ip", mac_address := none,
    os := none, cpu_model := none, cpu_cores := none, memory_gb := none,
    storage_gb := none, drives := none, gpu_model := none, version := none,
    location := none, owner := some "alice", notes := none }

def c3specs : NodeSpecs :=
  { id := none, hostname := "h", ip_address := "ip", mac_address := none, os := none,
    cpu_model := none, cpu_cores := none, memory_gb := none, storage_gb := none,
    drives := none, gpu_model := none, version := none }

/-- C3 counterexample: a self-service register call carrying `owner = "alice"`
is not rejected with a validation error: it succeeds and mutates the node
table (a row is created), because the request model silently drops the
undeclared administrative key. -/
theorem register_owner_not_rejected :
    c3body.owner = some "alice"
    ∧ register_endpoint 100 "gen" c3body []
        = .ok ([newNodeRow "gen" c3specs], [], "h", "gen")
    ∧ ([newNodeRow "gen" c3specs] : List Node) ≠ [] := by
  exact ⟨rfl, rfl, by simp⟩

/-- Witness for the amended C3 at concrete inputs. -/
theorem register_admin_fields_ignored_witness :
    register_endpoint 100 "gen" c3body []
      = register_endpoint 100 "gen"
          { c3body with location := none, owner := none, notes := none } []
    ∧ ∃ res, register_endpoint 100 "gen" c3body [] = .ok res := by
  have h := register_admin_fields_ignored 100 "gen" c3body []
  exact ⟨h.1, h.2 "h" "ip" rfl rfl⟩

end ServiceApi
